import Mathlib

/-!
# Verification of the good-life activity store

Shallow embedding of the `DatabaseService` class from
`src/screens/ActivityDetailScreen.tsx` (the expo-sqlite-backed activity
store) together with proofs of the spec's claims about it.

Modelling conventions:
* The SQLite table `activities` is modelled as a `List Activity` in insertion
  order; `INSERT` appends, `ORDER BY committed_on DESC, created_at DESC` is a
  stable sort (insertion sort) with the corresponding comparator, `WHERE id = ?` with
  `getFirstAsync` is `List.find?`, `DELETE` is `List.filter`, `UPDATE` maps
  over the rows.
* The impure inputs (the generated id, `new Date().toISOString()`, and the
  outcomes of `openDatabaseAsync` / `execAsync` during initialization) are
  explicit parameters.
* The `tags` column stores `JSON.stringify(activity.tags)`; since JSON
  encoding is injective on lists of strings and decoding inverts it, rows
  carry `tags : List String` directly, and `SELECT DISTINCT tags` deduplicates
  whole tag lists (deduplication by the encoded string coincides with
  deduplication by the list).
* ISO-8601 date and timestamp strings are compared with Lean's lexicographic
  `String` order, matching both SQLite's `TEXT` comparison and JavaScript's
  default string comparison.
-/

namespace GoodLife

/-- Record `Activity` from `src/types/Activity.ts`. -/
structure Activity where
  id : String
  handle : String
  committed_on : String
  tags : List String
  created_at : String
  updated_at : String
  deriving Repr, DecidableEq

/-- Record `NewActivity` from `src/types/Activity.ts`. -/
structure NewActivity where
  handle : String
  committed_on : String
  tags : List String
  deriving Repr, DecidableEq

/-- Model of `Partial<NewActivity>`: each field may be absent. A `none` field models a
key that is not present in the JavaScript object (and hence does not override
during object spread). -/
structure ActivityUpdate where
  handle : Option String := none
  committed_on : Option String := none
  tags : Option (List String) := none
  deriving Repr, DecidableEq

/-- Errors surfaced by the store: the "Database not initialized" error thrown
by `ensureInitialized`, failures of the underlying SQLite engine (e.g. the
PRIMARY KEY constraint), and initialization failures. -/
inductive DBError where
  | notInitialized
  | storageFailure
  | initializationFailure
  deriving Repr, DecidableEq

/-- The mutable fields of the `DatabaseService` class: `db` (the open database
handle, carrying the table contents) and `isInitialized`. -/
structure DatabaseService where
  db : Option (List Activity)
  isInitialized : Bool
  deriving Repr, DecidableEq

namespace DatabaseService

/-- The store is in the spec's `READY` state: `initialize` completed
successfully and was not reset. -/
def isReady (s : DatabaseService) : Bool :=
  s.isInitialized && s.db.isSome

/-- Method `ensureInitialized`: throws unless `isInitialized` and `db` are both set. -/
def ensureInitialized (s : DatabaseService) : Except DBError Unit :=
  if !s.isInitialized || s.db.isNone then
    .error .notInitialized
  else
    .ok ()

/-- Strict lexicographic comparison of stored `TEXT` values (SQLite's `BINARY`
collation on UTF-8 bytes orders exactly like code-point-lexicographic order,
and likewise JavaScript's default string comparison). -/
def strLt (a b : String) : Bool :=
  decide (a.data < b.data)

/-- Non-strict counterpart of `strLt`. -/
def strLe (a b : String) : Bool :=
  decide (a.data ≤ b.data)

/-- The comparator realised by `ORDER BY committed_on DESC, created_at DESC`:
row `a` may precede row `b` iff `a.committed_on > b.committed_on`, or they tie
on `committed_on` and `a.created_at ≥ b.created_at`. The `ORDER BY` is
modelled as a stable sort with this comparator. -/
def activityLe (a b : Activity) : Bool :=
  strLt b.committed_on a.committed_on ||
    ((a.committed_on == b.committed_on) && strLe b.created_at a.created_at)

/-- Relation form of `activityLe`, for `List.insertionSort`. -/
abbrev activityOrd (a b : Activity) : Prop :=
  activityLe a b = true

/-- Relation form of `strLe` on strings, for sorting the distinct tags. -/
abbrev strOrd (a b : String) : Prop :=
  strLe a b = true

/-- Outcomes of the effectful steps of `initialize`: `openDatabaseAsync`
(which on success yields the handle to the stored table) and `createTables`. -/
structure InitEnv where
  openResult : Except DBError (List Activity)
  createTablesResult : Except DBError Unit

/-- Method `initialize()`: returns at once when already initialized; otherwise resets
the state, opens the database and creates tables/indexes, marking the store
initialized on success and resetting `db = null`, `isInitialized = false`
before rethrowing on any failure. -/
def init (s : DatabaseService) (env : InitEnv) :
    DatabaseService × Except DBError Unit :=
  if s.isInitialized && s.db.isSome then
    (s, .ok ())
  else
    match env.openResult with
    | .error e => (⟨none, false⟩, .error e)
    | .ok rows =>
      match env.createTablesResult with
      | .error e => (⟨none, false⟩, .error e)
      | .ok () => (⟨some rows, true⟩, .ok ())

/-- Method `addActivity`: ensure initialized, build the row from the generated `id`
and the single timestamp `now`, and `INSERT` it. The `PRIMARY KEY` constraint
on `id` makes the insert a storage failure when the id already exists. -/
def addActivity (s : DatabaseService) (activity : NewActivity) (id now : String) :
    Except DBError (DatabaseService × Activity) :=
  match ensureInitialized s with
  | .error e => .error e
  | .ok () =>
    match s.db with
    | none => .error .notInitialized
    | some rows =>
      if rows.any (fun r => r.id == id) then
        .error .storageFailure
      else
        let a : Activity :=
          { id := id, handle := activity.handle, committed_on := activity.committed_on,
            tags := activity.tags, created_at := now, updated_at := now }
        .ok ({ s with db := some (rows ++ [a]) }, a)

/-- Method `getActivities`: `SELECT * FROM activities ORDER BY committed_on DESC,
created_at DESC`. -/
def getActivities (s : DatabaseService) : Except DBError (List Activity) :=
  match ensureInitialized s with
  | .error e => .error e
  | .ok () =>
    match s.db with
    | none => .error .notInitialized
    | some rows => .ok (List.insertionSort activityOrd rows)

/-- Method `getActivitiesByDateRange`: `WHERE committed_on >= ? AND committed_on <= ?`
with the same `ORDER BY` as `getActivities`. -/
def getActivitiesByDateRange (s : DatabaseService) (startDate endDate : String) :
    Except DBError (List Activity) :=
  match ensureInitialized s with
  | .error e => .error e
  | .ok () =>
    match s.db with
    | none => .error .notInitialized
    | some rows =>
      .ok (List.insertionSort activityOrd (rows.filter fun r =>
        strLe startDate r.committed_on && strLe r.committed_on endDate))

/-- Method `getActivityById`: `SELECT * FROM activities WHERE id = ?` via
`getFirstAsync`; `null` when no row matches. -/
def getActivityById (s : DatabaseService) (id : String) :
    Except DBError (Option Activity) :=
  match ensureInitialized s with
  | .error e => .error e
  | .ok () =>
    match s.db with
    | none => .error .notInitialized
    | some rows => .ok (rows.find? fun r => r.id == id)

/-- The object-spread merge `{...existing, ...updates, updated_at: now}`
performed by `updateActivity` (the later `if (updates.tags)` reassignment is
subsumed: a present `tags` key already overrode during the spread). -/
def mergeUpdate (existing : Activity) (updates : ActivityUpdate) (now : String) :
    Activity :=
  { existing with
    handle := updates.handle.getD existing.handle
    committed_on := updates.committed_on.getD existing.committed_on
    tags := updates.tags.getD existing.tags
    updated_at := now }

/-- Method `updateActivity`: read the existing row, return `null` without writing when
absent, otherwise merge and `UPDATE ... SET handle, committed_on, tags,
updated_at WHERE id = ?`, returning the merged object built in memory. -/
def updateActivity (s : DatabaseService) (id : String) (updates : ActivityUpdate)
    (now : String) : Except DBError (DatabaseService × Option Activity) :=
  match ensureInitialized s with
  | .error e => .error e
  | .ok () =>
    match getActivityById s id with
    | .error e => .error e
    | .ok none => .ok (s, none)
    | .ok (some existing) =>
      match s.db with
      | none => .error .notInitialized
      | some rows =>
        let updated := mergeUpdate existing updates now
        let newRows := rows.map fun r =>
          if r.id == id then
            { r with handle := updated.handle, committed_on := updated.committed_on,
                     tags := updated.tags, updated_at := updated.updated_at }
          else r
        .ok ({ s with db := some newRows }, some updated)

/-- Method `deleteActivity`: `DELETE FROM activities WHERE id = ?`, returning
`result.changes > 0`. -/
def deleteActivity (s : DatabaseService) (id : String) :
    Except DBError (DatabaseService × Bool) :=
  match ensureInitialized s with
  | .error e => .error e
  | .ok () =>
    match s.db with
    | none => .error .notInitialized
    | some rows =>
      let newRows := rows.filter fun r => !(r.id == id)
      .ok ({ s with db := some newRows }, decide (newRows.length < rows.length))

/-- Method `getAllTags`: `SELECT DISTINCT tags` (deduplicating encoded tag lists),
JSON-parse each, pour every tag into a `Set`, and return the sorted array. -/
def getAllTags (s : DatabaseService) : Except DBError (List String) :=
  match ensureInitialized s with
  | .error e => .error e
  | .ok () =>
    match s.db with
    | none => .error .notInitialized
    | some rows =>
      let distinctRows := (rows.map (·.tags)).dedup
      let allTags := (distinctRows.flatMap id).dedup
      .ok (List.insertionSort strOrd allTags)

/-! ## Basic lemmas about the comparators and the initialization guard -/

theorem strLt_iff {a b : String} : strLt a b = true ↔ a < b := by
  rw [String.lt_iff_toList_lt]
  exact decide_eq_true_iff

theorem strLe_iff {a b : String} : strLe a b = true ↔ a ≤ b := by
  rw [String.le_iff_toList_le]
  exact decide_eq_true_iff

theorem activityOrd_iff {a b : Activity} :
    activityOrd a b ↔
      b.committed_on < a.committed_on ∨
        (a.committed_on = b.committed_on ∧ b.created_at ≤ a.created_at) := by
  simp [activityOrd, activityLe, Bool.or_eq_true, Bool.and_eq_true, strLt_iff, strLe_iff,
    beq_iff_eq]

instance : IsTrans Activity activityOrd :=
  ⟨fun a b c hab hbc => by
    rw [activityOrd_iff] at hab hbc ⊢
    rcases hab with h1 | ⟨h1, h1'⟩ <;> rcases hbc with h2 | ⟨h2, h2'⟩
    · exact Or.inl (lt_trans h2 h1)
    · refine Or.inl ?_
      rw [← h2]
      exact h1
    · refine Or.inl ?_
      rw [h1]
      exact h2
    · exact Or.inr ⟨h1.trans h2, le_trans h2' h1'⟩⟩

instance : IsTotal Activity activityOrd :=
  ⟨fun a b => by
    rw [activityOrd_iff, activityOrd_iff]
    rcases lt_trichotomy a.committed_on b.committed_on with h | h | h
    · exact Or.inr (Or.inl h)
    · rcases le_total b.created_at a.created_at with h' | h'
      · exact Or.inl (Or.inr ⟨h, h'⟩)
      · exact Or.inr (Or.inr ⟨h.symm, h'⟩)
    · exact Or.inl (Or.inl h)⟩

theorem strOrd_iff {a b : String} : strOrd a b ↔ a ≤ b := strLe_iff

instance : IsTrans String strOrd :=
  ⟨fun _ _ _ hab hbc => strOrd_iff.mpr (le_trans (strOrd_iff.mp hab) (strOrd_iff.mp hbc))⟩

instance : IsTotal String strOrd :=
  ⟨fun a b => by
    rw [strOrd_iff, strOrd_iff]
    exact le_total a b⟩

theorem ensureInitialized_ok {s : DatabaseService} {rows : List Activity}
    (hinit : s.isInitialized = true) (hdb : s.db = some rows) :
    ensureInitialized s = .ok () := by
  simp [ensureInitialized, hinit, hdb]

theorem ensureInitialized_not_ready {s : DatabaseService} (h : isReady s = false) :
    ensureInitialized s = .error .notInitialized := by
  cases hi : s.isInitialized <;> cases hd : s.db <;>
    simp_all [isReady, ensureInitialized]

/-! ## Forward-computation lemmas for the operations on a READY store -/

theorem addActivity_eq {s : DatabaseService} {rows : List Activity}
    (hinit : s.isInitialized = true) (hdb : s.db = some rows)
    (na : NewActivity) (id now : String)
    (hfresh : rows.any (fun r => r.id == id) = false) :
    addActivity s na id now =
      .ok ({ s with db := some (rows ++ [⟨id, na.handle, na.committed_on, na.tags, now, now⟩]) },
        ⟨id, na.handle, na.committed_on, na.tags, now, now⟩) := by
  simp [addActivity, ensureInitialized_ok hinit hdb, hdb, hfresh]

theorem getActivities_eq {s : DatabaseService} {rows : List Activity}
    (hinit : s.isInitialized = true) (hdb : s.db = some rows) :
    getActivities s = .ok (List.insertionSort activityOrd rows) := by
  simp [getActivities, ensureInitialized_ok hinit hdb, hdb]

theorem getActivitiesByDateRange_eq {s : DatabaseService} {rows : List Activity}
    (hinit : s.isInitialized = true) (hdb : s.db = some rows)
    (startDate endDate : String) :
    getActivitiesByDateRange s startDate endDate =
      .ok (List.insertionSort activityOrd (rows.filter fun r =>
        strLe startDate r.committed_on && strLe r.committed_on endDate)) := by
  simp [getActivitiesByDateRange, ensureInitialized_ok hinit hdb, hdb]

theorem getActivityById_eq {s : DatabaseService} {rows : List Activity}
    (hinit : s.isInitialized = true) (hdb : s.db = some rows) (id : String) :
    getActivityById s id = .ok (rows.find? fun r => r.id == id) := by
  simp [getActivityById, ensureInitialized_ok hinit hdb, hdb]

theorem updateActivity_eq_found {s : DatabaseService} {rows : List Activity}
    (hinit : s.isInitialized = true) (hdb : s.db = some rows)
    {id : String} {existing : Activity}
    (hfind : rows.find? (fun r => r.id == id) = some existing)
    (updates : ActivityUpdate) (now : String) :
    updateActivity s id updates now =
      .ok ({ s with db := some (rows.map fun r =>
          if r.id == id then
            { r with handle := (mergeUpdate existing updates now).handle,
                     committed_on := (mergeUpdate existing updates now).committed_on,
                     tags := (mergeUpdate existing updates now).tags,
                     updated_at := (mergeUpdate existing updates now).updated_at }
          else r) },
        some (mergeUpdate existing updates now)) := by
  simp [updateActivity, ensureInitialized_ok hinit hdb, getActivityById_eq hinit hdb, hdb, hfind]

theorem updateActivity_eq_missing {s : DatabaseService} {rows : List Activity}
    (hinit : s.isInitialized = true) (hdb : s.db = some rows)
    {id : String} (hfind : rows.find? (fun r => r.id == id) = none)
    (updates : ActivityUpdate) (now : String) :
    updateActivity s id updates now = .ok (s, none) := by
  simp [updateActivity, ensureInitialized_ok hinit hdb, getActivityById_eq hinit hdb, hfind]

theorem deleteActivity_eq {s : DatabaseService} {rows : List Activity}
    (hinit : s.isInitialized = true) (hdb : s.db = some rows) (id : String) :
    deleteActivity s id =
      .ok ({ s with db := some (rows.filter fun r => !(r.id == id)) },
        decide ((rows.filter fun r => !(r.id == id)).length < rows.length)) := by
  simp only [deleteActivity, ensureInitialized_ok hinit hdb, hdb]

theorem getAllTags_eq {s : DatabaseService} {rows : List Activity}
    (hinit : s.isInitialized = true) (hdb : s.db = some rows) :
    getAllTags s =
      .ok (List.insertionSort strOrd (((rows.map (·.tags)).dedup.flatMap id).dedup)) := by
  simp [getAllTags, ensureInitialized_ok hinit hdb, hdb]

end DatabaseService

/-! ## Generic list lemmas: stable sorting commutes with filtering -/

section FilterSort

variable {α : Type*} (r : α → α → Prop) [DecidableRel r]

theorem orderedInsert_of_forall_rel {a : α} :
    ∀ {l : List α}, (∀ b ∈ l, r a b) → List.orderedInsert r a l = a :: l
  | [], _ => rfl
  | b :: l, h => List.orderedInsert_of_le r l (h b (List.mem_cons_self b l))

theorem filter_orderedInsert_neg (p : α → Bool) (a : α) (hp : p a = false)
    (l : List α) : (List.orderedInsert r a l).filter p = l.filter p := by
  induction l with
  | nil => simp [hp]
  | cons b l ih =>
    by_cases h : r a b
    · simp [List.orderedInsert, if_pos h, List.filter_cons, hp]
    · simp only [List.orderedInsert, if_neg h, List.filter_cons]
      rw [ih]

theorem filter_orderedInsert_pos [IsTrans α r] (p : α → Bool) (a : α) (hp : p a = true)
    (l : List α) (hl : l.Sorted r) :
    (List.orderedInsert r a l).filter p = List.orderedInsert r a (l.filter p) := by
  induction l with
  | nil => simp [hp]
  | cons b l ih =>
    by_cases h : r a b
    · rw [List.orderedInsert_of_le r l h]
      by_cases hb : p b = true
      · simp [List.filter_cons, hp, hb, List.orderedInsert, h]
      · have hb' : p b = false := by simpa using hb
        simp only [List.filter_cons, hp, hb', if_true, Bool.false_eq_true, if_false]
        refine (orderedInsert_of_forall_rel r ?_).symm
        intro c hc
        exact IsTrans.trans _ _ _ h (List.rel_of_sorted_cons hl c (List.mem_of_mem_filter hc))
    · simp only [List.orderedInsert, if_neg h, List.filter_cons]
      by_cases hb : p b = true
      · simp only [hb, if_true]
        rw [ih hl.of_cons, List.orderedInsert, if_neg h]
      · have hb' : p b = false := by simpa using hb
        simp only [hb', Bool.false_eq_true, if_false]
        exact ih hl.of_cons

theorem filter_insertionSort [IsTrans α r] [IsTotal α r] (p : α → Bool) (l : List α) :
    (List.insertionSort r l).filter p = List.insertionSort r (l.filter p) := by
  induction l with
  | nil => rfl
  | cons a l ih =>
    by_cases hp : p a = true
    · simp only [List.insertionSort, List.filter_cons, hp, if_true]
      rw [filter_orderedInsert_pos r p a hp _ (List.sorted_insertionSort r l), ih]
    · have hp' : p a = false := by simpa using hp
      simp only [List.insertionSort, List.filter_cons, hp', Bool.false_eq_true, if_false]
      rw [filter_orderedInsert_neg r p a hp', ih]

end FilterSort

/-- The length of a filtered list drops exactly when some element fails the
predicate. -/
theorem length_filter_lt_length_iff {α : Type*} {p : α → Bool} {l : List α} :
    (l.filter p).length < l.length ↔ ∃ a ∈ l, p a = false := by
  constructor
  · intro h
    by_contra hne
    push_neg at hne
    have hall : ∀ a ∈ l, p a = true := by
      intro a ha
      cases hpa : p a with
      | false => exact absurd hpa (hne a ha)
      | true => rfl
    rw [List.filter_length_eq_length.mpr hall] at h
    exact Nat.lt_irrefl _ h
  · rintro ⟨a, ha, hpa⟩
    refine Nat.lt_of_le_of_ne (List.length_filter_le _ _) ?_
    intro heq
    have := List.filter_length_eq_length.mp heq a ha
    rw [this] at hpa
    cases hpa

open DatabaseService

/-! ## Concrete sample data for witnesses -/

/-- A row as created by `add({handle:"h", committed_on:"2024-01-01", tags:["a"]})`. -/
def actA : Activity :=
  ⟨"id1", "h", "2024-01-01", ["a"], "2024-01-01T08:00:00.000Z", "2024-01-01T08:00:00.000Z"⟩

def actB : Activity :=
  ⟨"id2", "walk", "2024-01-02", ["a", "b"], "2024-01-01T09:00:00.000Z", "2024-01-01T09:00:00.000Z"⟩

def actC : Activity :=
  ⟨"id3", "read", "2024-01-02", ["b", "c"], "2024-01-03T09:00:00.000Z", "2024-01-03T09:00:00.000Z"⟩

/-- A READY store holding three activities. -/
def sampleStore : DatabaseService := ⟨some [actA, actB, actC], true⟩

/-! ## The claims -/

/-- Claim C1: calling `add` on a READY store (with a fresh generated id, as the
PRIMARY KEY constraint demands) and then `getById` with the returned id yields
an Activity equal to the input in handle, committed_on and tags, whose
`created_at` equals its `updated_at`. -/
theorem add_getById_roundtrip (s : DatabaseService) (rows : List Activity)
    (na : NewActivity) (id now : String)
    (hinit : s.isInitialized = true) (hdb : s.db = some rows)
    (hfresh : ∀ r ∈ rows, r.id ≠ id) :
    ∃ s' act, addActivity s na id now = .ok (s', act) ∧
      getActivityById s' act.id = .ok (some act) ∧
      act.handle = na.handle ∧ act.committed_on = na.committed_on ∧
      act.tags = na.tags ∧ act.created_at = act.updated_at := by
  have hfresh' : rows.any (fun r => r.id == id) = false := by
    simp only [List.any_eq_false]
    intro r hr
    simpa using hfresh r hr
  have hnone : rows.find? (fun r => r.id == id) = none := by
    rw [List.find?_eq_none]
    intro r hr
    simpa using hfresh r hr
  refine ⟨_, _, addActivity_eq hinit hdb na id now hfresh', ?_, rfl, rfl, rfl, rfl⟩
  simp [getActivityById, ensureInitialized, hinit, List.find?_append, hnone, List.find?_cons]

/-- Witness for C1 at a concrete store and input. -/
theorem add_getById_roundtrip_witness :
    ∃ s' act,
      addActivity sampleStore ⟨"run", "2024-01-05", ["fit"]⟩ "id9"
          "2024-01-05T10:00:00.000Z" = .ok (s', act) ∧
      getActivityById s' act.id = .ok (some act) ∧
      act.handle = "run" ∧ act.committed_on = "2024-01-05" ∧
      act.tags = ["fit"] ∧ act.created_at = act.updated_at :=
  add_getById_roundtrip sampleStore [actA, actB, actC] ⟨"run", "2024-01-05", ["fit"]⟩
    "id9" "2024-01-05T10:00:00.000Z" rfl rfl (by decide)

/-- Claim C2: on a READY store, `list()` returns exactly the stored activities (a
permutation of them), pairwise ordered by `committed_on` descending with ties
broken by `created_at` descending, so that within a tie the more recently
created activity comes first. -/
theorem getActivities_ordering (s : DatabaseService) (rows : List Activity)
    (hinit : s.isInitialized = true) (hdb : s.db = some rows) :
    ∃ l, getActivities s = .ok l ∧ l.Perm rows ∧
      l.Pairwise (fun a b => b.committed_on < a.committed_on ∨
        (a.committed_on = b.committed_on ∧ b.created_at ≤ a.created_at)) := by
  refine ⟨_, getActivities_eq hinit hdb, List.perm_insertionSort _ _, ?_⟩
  exact List.Pairwise.imp (fun h => activityOrd_iff.mp h)
    (List.sorted_insertionSort activityOrd rows)

/-- Witness for C2 at a concrete store. -/
theorem getActivities_ordering_witness :
    ∃ l, getActivities sampleStore = .ok l ∧ l.Perm [actA, actB, actC] ∧
      l.Pairwise (fun a b => b.committed_on < a.committed_on ∨
        (a.committed_on = b.committed_on ∧ b.created_at ≤ a.created_at)) :=
  getActivities_ordering sampleStore [actA, actB, actC] rfl rfl

/-- Claim C3: a successful `update(id, partial)` changes exactly the supplied
fields (`getD` returns the supplied value when present and the prior one when
absent), keeps `id` and `created_at`, refreshes `updated_at` to the update
time, and — the update happening after creation — leaves
`created_at < updated_at`. -/
theorem updateActivity_partial_frame (s : DatabaseService) (rows : List Activity)
    (id now : String) (updates : ActivityUpdate) (existing : Activity)
    (hinit : s.isInitialized = true) (hdb : s.db = some rows)
    (hfind : rows.find? (fun r => r.id == id) = some existing)
    (hnow : existing.created_at < now) :
    ∃ s' updated, updateActivity s id updates now = .ok (s', some updated) ∧
      updated.handle = updates.handle.getD existing.handle ∧
      updated.committed_on = updates.committed_on.getD existing.committed_on ∧
      updated.tags = updates.tags.getD existing.tags ∧
      updated.id = existing.id ∧
      updated.created_at = existing.created_at ∧
      updated.updated_at = now ∧
      updated.created_at < updated.updated_at :=
  ⟨_, _, updateActivity_eq_found hinit hdb hfind updates now,
    rfl, rfl, rfl, rfl, rfl, rfl, hnow⟩

/-- Witness for C3: after `add({handle:"h", committed_on:"2024-01-01",
tags:["a"]})`, updating only the tags to `["b","c"]` keeps handle `"h"` and
committed_on `"2024-01-01"`, sets tags to `["b","c"]`, and leaves
`created_at < updated_at`. -/
theorem updateActivity_partial_frame_witness :
    ∃ s' updated,
      updateActivity sampleStore "id1" ⟨none, none, some ["b", "c"]⟩
          "2024-01-02T00:00:00.000Z" = .ok (s', some updated) ∧
      updated.handle = "h" ∧ updated.committed_on = "2024-01-01" ∧
      updated.tags = ["b", "c"] ∧ updated.created_at < updated.updated_at := by
  obtain ⟨s', u, h1, h2, h3, h4, _, _, _, h8⟩ :=
    updateActivity_partial_frame sampleStore [actA, actB, actC] "id1"
      "2024-01-02T00:00:00.000Z" ⟨none, none, some ["b", "c"]⟩ actA rfl rfl rfl
      (String.lt_iff_toList_lt.mpr (by decide))
  exact ⟨s', u, h1, by simpa [actA] using h2, by simpa [actA] using h3,
    by simpa using h4, h8⟩

/-- Claim C4: every data operation invoked while the store is not READY fails
with the NotInitialized error — a returned `Except.error .notInitialized`, not
a crash, not a successful empty result. -/
theorem ops_fail_when_not_ready (s : DatabaseService) (h : isReady s = false)
    (na : NewActivity) (updates : ActivityUpdate) (id now startDate endDate : String) :
    addActivity s na id now = .error .notInitialized ∧
    getActivities s = .error .notInitialized ∧
    getActivitiesByDateRange s startDate endDate = .error .notInitialized ∧
    getActivityById s id = .error .notInitialized ∧
    updateActivity s id updates now = .error .notInitialized ∧
    deleteActivity s id = .error .notInitialized ∧
    getAllTags s = .error .notInitialized := by
  have he := ensureInitialized_not_ready h
  exact ⟨by simp [addActivity, he], by simp [getActivities, he],
    by simp [getActivitiesByDateRange, he], by simp [getActivityById, he],
    by simp [updateActivity, he], by simp [deleteActivity, he],
    by simp [getAllTags, he]⟩

/-- Witness for C4 at the freshly constructed (UNINITIALIZED) store. -/
theorem ops_fail_when_not_ready_witness :
    addActivity ⟨none, false⟩ ⟨"h", "2024-01-01", ["a"]⟩ "id1" "t" =
        .error .notInitialized ∧
    getActivities ⟨none, false⟩ = .error .notInitialized ∧
    getActivitiesByDateRange ⟨none, false⟩ "2024-01-01" "2024-01-02" =
        .error .notInitialized ∧
    getActivityById ⟨none, false⟩ "id1" = .error .notInitialized ∧
    updateActivity ⟨none, false⟩ "id1" ⟨none, none, none⟩ "t" =
        .error .notInitialized ∧
    deleteActivity ⟨none, false⟩ "id1" = .error .notInitialized ∧
    getAllTags ⟨none, false⟩ = .error .notInitialized :=
  ops_fail_when_not_ready ⟨none, false⟩ rfl ⟨"h", "2024-01-01", ["a"]⟩
    ⟨none, none, none⟩ "id1" "t" "2024-01-01" "2024-01-02"

/-- Claim C5: for an id matching no stored row on a READY store, `getById`
returns the explicit absent marker (`ok none`, not an error), and `update`
returns the absent marker while performing no write: the returned store is the
unchanged input store. -/
theorem notFound_explicit_marker (s : DatabaseService) (rows : List Activity)
    (id now : String) (updates : ActivityUpdate)
    (hinit : s.isInitialized = true) (hdb : s.db = some rows)
    (habsent : ∀ r ∈ rows, r.id ≠ id) :
    getActivityById s id = .ok none ∧
    updateActivity s id updates now = .ok (s, none) := by
  have hfind : rows.find? (fun r => r.id == id) = none := by
    rw [List.find?_eq_none]
    intro r hr
    simpa using habsent r hr
  exact ⟨by rw [getActivityById_eq hinit hdb, hfind],
    updateActivity_eq_missing hinit hdb hfind updates now⟩

/-- Witness for C5 at a concrete store and a nonexistent id. -/
theorem notFound_explicit_marker_witness :
    getActivityById sampleStore "nonexistent-id" = .ok none ∧
    updateActivity sampleStore "nonexistent-id" ⟨some "x", none, none⟩ "t" =
      .ok (sampleStore, none) :=
  notFound_explicit_marker sampleStore [actA, actB, actC] "nonexistent-id" "t"
    ⟨some "x", none, none⟩ rfl rfl (by decide)

/-- Lemma: `find?` commutes with mapping a function that does not disturb the
predicate. -/
theorem find?_map_of_pred_comm {α : Type*} {f : α → α} {p : α → Bool}
    (hf : ∀ r, p (f r) = p r) (l : List α) :
    (l.map f).find? p = (l.find? p).map f := by
  induction l with
  | nil => rfl
  | cons a l ih =>
    by_cases h : p a = true
    · simp [List.find?_cons, hf, h]
    · have h' : p a = false := by simpa using h
      simp [List.find?_cons, hf, h', ih]

/-- A two-activity READY store whose tag lists are `["a","b"]` and `["b","c"]`. -/
def tagStore : DatabaseService := ⟨some [actB, actC], true⟩

/-- Claim C6: on a READY store, `listByDateRange(start, end)` is exactly the
`list()` output filtered to `start ≤ committed_on ≤ end` (both bounds
inclusive, same order as `list()`), its members are exactly the stored
activities in range, and an inverted range yields the empty sequence without
error. -/
theorem dateRange_spec (s : DatabaseService) (rows : List Activity)
    (startDate endDate : String)
    (hinit : s.isInitialized = true) (hdb : s.db = some rows) :
    ∃ full ranged,
      getActivities s = .ok full ∧
      getActivitiesByDateRange s startDate endDate = .ok ranged ∧
      ranged = full.filter (fun r =>
        strLe startDate r.committed_on && strLe r.committed_on endDate) ∧
      (∀ x, x ∈ ranged ↔
        x ∈ rows ∧ startDate ≤ x.committed_on ∧ x.committed_on ≤ endDate) ∧
      (endDate < startDate → ranged = []) := by
  have hmem : ∀ x, x ∈ List.insertionSort activityOrd (rows.filter fun r =>
      strLe startDate r.committed_on && strLe r.committed_on endDate) ↔
      x ∈ rows ∧ startDate ≤ x.committed_on ∧ x.committed_on ≤ endDate := by
    intro x
    simp [List.mem_insertionSort, List.mem_filter, Bool.and_eq_true, strLe_iff, and_assoc]
  refine ⟨_, _, getActivities_eq hinit hdb,
    getActivitiesByDateRange_eq hinit hdb startDate endDate, ?_, hmem, ?_⟩
  · exact (filter_insertionSort activityOrd _ rows).symm
  · intro hinv
    rw [List.eq_nil_iff_forall_not_mem]
    intro x hx
    obtain ⟨-, h1, h2⟩ := (hmem x).mp hx
    exact absurd (le_trans h1 h2) (not_le.mpr hinv)

/-- Witness for C6 at a concrete store and range. -/
theorem dateRange_spec_witness :
    ∃ full ranged,
      getActivities sampleStore = .ok full ∧
      getActivitiesByDateRange sampleStore "2024-01-02" "2024-01-02" = .ok ranged ∧
      ranged = full.filter (fun r =>
        strLe "2024-01-02" r.committed_on && strLe r.committed_on "2024-01-02") ∧
      (∀ x, x ∈ ranged ↔
        x ∈ [actA, actB, actC] ∧ "2024-01-02" ≤ x.committed_on ∧
          x.committed_on ≤ "2024-01-02") ∧
      ("2024-01-02" < "2024-01-02" → ranged = []) :=
  dateRange_spec sampleStore [actA, actB, actC] "2024-01-02" "2024-01-02" rfl rfl

/-- Claim C7: on a READY store, `distinctTags()` returns a strictly sorted (hence
deduplicated, lexicographically ascending) list whose members are exactly the
tags occurring across all stored activities. -/
theorem getAllTags_spec (s : DatabaseService) (rows : List Activity)
    (hinit : s.isInitialized = true) (hdb : s.db = some rows) :
    ∃ l, getAllTags s = .ok l ∧
      (∀ t, t ∈ l ↔ ∃ a ∈ rows, t ∈ a.tags) ∧
      l.Pairwise (· < ·) := by
  refine ⟨_, getAllTags_eq hinit hdb, ?_, ?_⟩
  · intro t
    simp only [List.mem_insertionSort, List.mem_dedup, List.mem_flatMap, List.mem_map, id]
    constructor
    · rintro ⟨tl, ⟨a, ha, rfl⟩, ht⟩
      exact ⟨a, ha, ht⟩
    · rintro ⟨a, ha, ht⟩
      exact ⟨a.tags, ⟨a, ha, rfl⟩, ht⟩
  · have hnd : (List.insertionSort strOrd
        (((rows.map (·.tags)).dedup.flatMap id).dedup)).Nodup :=
      (List.perm_insertionSort strOrd _).nodup_iff.mpr (List.nodup_dedup _)
    have hsorted := List.sorted_insertionSort strOrd
      (((rows.map (·.tags)).dedup.flatMap id).dedup)
    exact (List.Pairwise.and hsorted hnd).imp
      (fun h => lt_of_le_of_ne (strOrd_iff.mp h.1) h.2)

/-- Witness for C7: tags `["a","b"]` and `["b","c"]` yield exactly
`["a","b","c"]`. -/
theorem getAllTags_spec_witness :
    ∃ l, getAllTags tagStore = .ok l ∧
      (∀ t, t ∈ l ↔ ∃ a ∈ [actB, actC], t ∈ a.tags) ∧
      l.Pairwise (· < ·) ∧ l = ["a", "b", "c"] := by
  obtain ⟨l, h1, h2, h3⟩ := getAllTags_spec tagStore [actB, actC] rfl rfl
  have hval : getAllTags tagStore = .ok ["a", "b", "c"] := rfl
  rw [h1] at hval
  exact ⟨l, h1, h2, h3, Except.ok.inj hval⟩

/-- Claim C8: `delete(id)` on a READY store succeeds (it does not throw) with a
boolean that is `true` iff some stored row had that id (i.e. a row was
removed); the remaining rows are exactly those with a different id, so a
nonexistent id returns `false` and removes nothing. -/
theorem deleteActivity_spec (s : DatabaseService) (rows : List Activity) (id : String)
    (hinit : s.isInitialized = true) (hdb : s.db = some rows) :
    ∃ s' removed, deleteActivity s id = .ok (s', removed) ∧
      (removed = true ↔ ∃ r ∈ rows, r.id = id) ∧
      s'.db = some (rows.filter fun r => !(r.id == id)) := by
  refine ⟨_, _, deleteActivity_eq hinit hdb id, ?_, rfl⟩
  rw [decide_eq_true_iff, length_filter_lt_length_iff]
  simp

/-- Witness for C8: deleting a nonexistent id. -/
theorem deleteActivity_spec_witness :
    ∃ s' removed, deleteActivity sampleStore "nonexistent-id" = .ok (s', removed) ∧
      (removed = true ↔ ∃ r ∈ [actA, actB, actC], r.id = "nonexistent-id") ∧
      s'.db = some ([actA, actB, actC].filter fun r => !(r.id == "nonexistent-id")) :=
  deleteActivity_spec sampleStore [actA, actB, actC] "nonexistent-id" rfl rfl

/-- Claim C9: `initialize()` on an already-READY store returns immediately with
the state untouched; when the store is not READY and opening the database or
creating the tables fails, that failure is surfaced and the store resets to
the uninitialized state, from which a later call with a healthy environment
succeeds. -/
theorem init_spec (s : DatabaseService) (env : InitEnv) :
    (isReady s = true → init s env = (s, .ok ())) ∧
    (isReady s = false → ∀ e,
      (env.openResult = .error e ∨
        (∃ rows, env.openResult = .ok rows ∧ env.createTablesResult = .error e)) →
      init s env = (⟨none, false⟩, .error e)) ∧
    (∀ env2 rows2, env2.openResult = .ok rows2 → env2.createTablesResult = .ok () →
      init ⟨none, false⟩ env2 = (⟨some rows2, true⟩, .ok ())) := by
  refine ⟨?_, ?_, ?_⟩
  · intro h
    unfold isReady at h
    simp [init, h]
  · intro h e hcase
    unfold isReady at h
    rcases hcase with hopen | ⟨rows, hopen, hcreate⟩
    · simp [init, h, hopen]
    · simp [init, h, hopen, hcreate]
  · intro env2 rows2 h1 h2
    simp [init, h1, h2]

/-- Witness for C9: the three clauses at concrete stores and environments. -/
theorem init_spec_witness :
    init sampleStore ⟨.error .initializationFailure, .ok ()⟩ = (sampleStore, .ok ()) ∧
    init ⟨none, false⟩ ⟨.error .initializationFailure, .ok ()⟩ =
      (⟨none, false⟩, .error .initializationFailure) ∧
    init ⟨none, false⟩ ⟨.ok [actA], .ok ()⟩ = (⟨some [actA], true⟩, .ok ()) :=
  ⟨(init_spec sampleStore ⟨.error .initializationFailure, .ok ()⟩).1 rfl,
   (init_spec ⟨none, false⟩ ⟨.error .initializationFailure, .ok ()⟩).2.1 rfl
     .initializationFailure (Or.inl rfl),
   (init_spec ⟨none, false⟩ ⟨.error .initializationFailure, .ok ()⟩).2.2
     ⟨.ok [actA], .ok ()⟩ [actA] rfl rfl⟩

/-- Claim C10: the Activity a successful `update` returns — built in memory by
merging, without re-reading storage — is exactly what an immediately
subsequent `getById(id)` reads back from the written store. -/
theorem update_then_getById_agrees (s : DatabaseService) (rows : List Activity)
    (id now : String) (updates : ActivityUpdate) (existing : Activity)
    (hinit : s.isInitialized = true) (hdb : s.db = some rows)
    (hfind : rows.find? (fun r => r.id == id) = some existing) :
    ∃ s' updated, updateActivity s id updates now = .ok (s', some updated) ∧
      getActivityById s' id = .ok (some updated) := by
  refine ⟨_, _, updateActivity_eq_found hinit hdb hfind updates now, ?_⟩
  have hid : (existing.id == id) = true := by simpa using List.find?_some hfind
  simp only [getActivityById, ensureInitialized, hinit]
  rw [find?_map_of_pred_comm (fun r => by by_cases h : (r.id == id) = true <;> simp [h]),
    hfind]
  simp [hid, mergeUpdate]
  intro h
  exact absurd (by simpa using hid) h

/-- Witness for C10 at a concrete store, updating every field of one row. -/
theorem update_then_getById_agrees_witness :
    ∃ s' updated,
      updateActivity sampleStore "id2" ⟨some "jog", some "2024-01-03", some ["x"]⟩
          "2024-01-04T07:00:00.000Z" = .ok (s', some updated) ∧
      getActivityById s' "id2" = .ok (some updated) :=
  update_then_getById_agrees sampleStore [actA, actB, actC] "id2"
    "2024-01-04T07:00:00.000Z" ⟨some "jog", some "2024-01-03", some ["x"]⟩ actB
    rfl rfl rfl

end GoodLife
